import Mathlib

/-!
Verification of the open-runner world streaming engine.

Shallow embedding of the procedural terrain generator
(js/rendering/terrainGenerator.js, the LOD-stitching version),
the object generator (js/generators/objectGenerator.js),
the object pool manager (js/managers/objectPoolManager.js) and the
chunk content manager's collection entry point
(js/managers/chunkContentManager.js).

Numbers are modelled exactly over the rationals; JavaScript 32-bit
integer coercions are modelled with explicit wrap-around on integers.
External collaborators (the simplex-noise library and the alea PRNG of
the seedrandom library) are parameters of the embedding: definitions
take an arbitrary noise function respectively an arbitrary seed-indexed
random stream.
-/

namespace OpenRunner

/-! ### JavaScript numeric primitives -/

/-- Wrap an integer to a signed 32-bit value, as the JavaScript `| 0`
coercion does. -/
def toSigned32 (x : ℤ) : ℤ := (x + 2 ^ 31) % 2 ^ 32 - 2 ^ 31

/-- Truncating division result as an integer, matching JavaScript
`Math.trunc` (round toward zero). -/
def ratTrunc (q : ℚ) : ℤ := if 0 ≤ q then ⌊q⌋ else -⌊-q⌋

/-- The JavaScript `%` remainder on numbers: `x % y = x - y * trunc (x / y)`.
(In JavaScript a zero divisor yields `NaN`; over `ℚ` division by zero is `0`,
so `jsMod x 0 = x`.  The only place this matters is the degenerate
stitching loop for non-positive detail levels, where the written value is
unchanged either way.) -/
def jsMod (x y : ℚ) : ℚ := x - y * (ratTrunc (x / y) : ℚ)

/-- `Math.ceil (Math.sqrt n)` for a natural number `n`. -/
def jsCeilSqrt (n : ℕ) : ℕ :=
  let s := Nat.sqrt n
  if s * s = n then s else s + 1

/-- The IEEE double value of `Math.PI`, as an exact rational. -/
def mathPI : ℚ := 884279719003555 / 281474976710656

/-! ### Seed hash (terrainGenerator.js, noise seeding callback)

The seed callback folds the seed string through
`h = (h << 5) - h + charCode; h |= 0` and returns `h / 0x80000000`. -/

/-- One step of the seed hash: `h = ((h << 5) | 0) - h + c`, wrapped to a
signed 32-bit integer. -/
def seedHashStep (h : ℤ) (c : ℕ) : ℤ :=
  toSigned32 (toSigned32 (h * 32) - h + (c : ℤ))

/-- The string hash used to seed the 2D noise function. -/
def seedHash (seed : String) : ℤ :=
  seed.data.foldl (fun h ch => seedHashStep h ch.toNat) 0

/-- The normalized seed value handed to `createNoise2D`. -/
def seedNorm (seed : String) : ℚ := (seedHash seed : ℚ) / (2 ^ 31 : ℚ)

/-! ### Terrain generator (js/rendering/terrainGenerator.js)

`createTerrainChunk(chunkX, chunkZ, levelConfig, lod, neighborLODs)`
builds a `CHUNK_SIZE × CHUNK_SIZE` plane with `lod × lod` segments,
rotates it into the XZ plane, sets every vertex height to
`noise2D(worldX * NOISE_FREQUENCY, worldZ * NOISE_FREQUENCY) * NOISE_AMPLITUDE`
and then runs `stitchTerrainEdges`.  After the `rotateX(-π/2)` the vertex
with grid row `r` and column `c` sits at local
`x = -S/2 + c * (S / segments)`, `z = -S/2 + r * (S / segments)` and has
buffer index `r * (segments + 1) + c`. -/

/-- The part of a level configuration consumed by the terrain generator. -/
structure TerrainLevelConfig where
  noiseFrequency : ℚ
  noiseAmplitude : ℚ
  deriving DecidableEq

/-- The `neighborLODs` argument: detail levels of the four adjacent chunks. -/
structure NeighborLODs where
  north : ℤ
  south : ℤ
  east : ℤ
  west : ℤ
  deriving DecidableEq

/-- The terrain LOD bands of `terrainConfig.LOD_LEVELS`
(src config: distances 4, 8, 16, 32 with 32, 16, 8, 4 segments). -/
structure LodLevel where
  dist : ℚ
  segments : ℕ
  deriving DecidableEq, Inhabited

/-- `terrainConfig.LOD_LEVELS` from the source configuration. -/
def terrainLodLevels : List LodLevel :=
  [⟨4, 32⟩, ⟨8, 16⟩, ⟨16, 8⟩, ⟨32, 4⟩]

/-- Whether the `lod` argument is invalid:
`typeof lod !== 'number' || lod <= 0` (`none` models a non-numeric value). -/
def lodInvalid (lod : Option ℤ) : Bool :=
  match lod with
  | none => true
  | some l => decide (l ≤ 0)

/-- The segment count actually used for the plane geometry: the raw LOD when
valid, otherwise the fail-safe `terrainConfig.LOD_LEVELS[0].segments`. -/
def resolveSegments (lod : Option ℤ) : ℕ :=
  if lodInvalid lod then (terrainLodLevels.headI).segments
  else (lod.getD 0).toNat

/-- Local x coordinate of the grid vertex in column `c` of a plane with `s`
segments and side length `S`. -/
def vertexLocalX (S : ℚ) (s : ℕ) (c : ℕ) : ℚ := -(S / 2) + (c : ℚ) * (S / (s : ℚ))

/-- Local z coordinate of the grid vertex in row `r` (after `rotateX(-π/2)`). -/
def vertexLocalZ (S : ℚ) (s : ℕ) (r : ℕ) : ℚ := -(S / 2) + (r : ℚ) * (S / (s : ℚ))

/-- Height written by the main vertex loop of `createTerrainChunk` for the
vertex at row `r`, column `c` of chunk `(cx, cz)`. -/
def baseHeight (noise : ℚ → ℚ → ℚ) (cfg : TerrainLevelConfig) (S : ℚ)
    (cx cz : ℤ) (s : ℕ) (r c : ℕ) : ℚ :=
  noise ((vertexLocalX S s c + (cx : ℚ) * S) * cfg.noiseFrequency)
        ((vertexLocalZ S s r + (cz : ℚ) * S) * cfg.noiseFrequency) *
    cfg.noiseAmplitude

/-- The vertex height buffer after the main loop, in buffer order
(index `i` holds row `i / (s+1)`, column `i % (s+1)`). -/
def baseHeights (noise : ℚ → ℚ → ℚ) (cfg : TerrainLevelConfig) (S : ℚ)
    (cx cz : ℤ) (s : ℕ) : List ℚ :=
  (List.range ((s + 1) * (s + 1))).map
    (fun i => baseHeight noise cfg S cx cz s (i / (s + 1)) (i % (s + 1)))

/-- The four edges handled by `stitchTerrainEdges`. -/
inductive Edge where
  | north
  | south
  | east
  | west
  deriving DecidableEq

/-- Buffer index written by `stitchEdge` for loop counter `i`, with
`segments = currentLOD` (verbatim from the `switch` in the source). -/
def edgeIndex (s : ℕ) (e : Edge) (i : ℕ) : ℕ :=
  match e with
  | .north => i
  | .south => s * (s + 1) + i
  | .east => (i + 1) * (s + 1) - 1
  | .west => i * (s + 1)

/-- Local x coordinate used by `stitchEdge` for loop counter `i`. -/
def edgeLocalX (S : ℚ) (s : ℕ) (e : Edge) (i : ℕ) : ℚ :=
  match e with
  | .north => -(S / 2) + (i : ℚ) * (S / (s : ℚ))
  | .south => -(S / 2) + (i : ℚ) * (S / (s : ℚ))
  | .east => S / 2
  | .west => -(S / 2)

/-- Local z coordinate used by `stitchEdge` for loop counter `i`. -/
def edgeLocalZ (S : ℚ) (s : ℕ) (e : Edge) (i : ℕ) : ℚ :=
  match e with
  | .north => -(S / 2)
  | .south => S / 2
  | .east => -(S / 2) + (i : ℚ) * (S / (s : ℚ))
  | .west => -(S / 2) + (i : ℚ) * (S / (s : ℚ))

/-- The height `stitchEdge` writes for loop counter `i`: the same noise
formula, sampled at the vertex's own world position. -/
def stitchHeight (noise : ℚ → ℚ → ℚ) (cfg : TerrainLevelConfig) (S : ℚ)
    (cx cz : ℤ) (s : ℕ) (e : Edge) (i : ℕ) : ℚ :=
  noise ((edgeLocalX S s e i + (cx : ℚ) * S) * cfg.noiseFrequency)
        ((edgeLocalZ S s e i + (cz : ℚ) * S) * cfg.noiseFrequency) *
    cfg.noiseAmplitude

/-- The inner `stitchEdge` closure of `stitchTerrainEdges`: skip when
`currentLOD <= neighborLOD`; otherwise loop `i = 0 .. currentLOD`, skip the
indices aligned with the neighbor's stride (`i % (1/ratio) === 0` with
`ratio = neighborLOD / currentLOD`) and rewrite the edge vertex height.
Out-of-range writes are dropped (`List.set` is the identity there, matching
typed-array stores). -/
def stitchEdge (noise : ℚ → ℚ → ℚ) (cfg : TerrainLevelConfig) (S : ℚ)
    (cx cz : ℤ) (c : ℤ) (nb : ℤ) (e : Edge) (hs : List ℚ) : List ℚ :=
  if c ≤ nb then hs
  else
    (List.range (c + 1).toNat).foldl
      (fun acc (i : ℕ) =>
        if jsMod (i : ℚ) ((c : ℚ) / (nb : ℚ)) = 0 then acc
        else acc.set (edgeIndex c.toNat e i)
          (stitchHeight noise cfg S cx cz c.toNat e i))
      hs

/-- `stitchTerrainEdges(geometry, currentLOD, neighborLODs, chunkCoords,
levelConfig)`: stitches the four edges in source order north, south, east,
west.  A non-numeric `currentLOD` (`none`) makes every loop bound `NaN`
comparison fail, so nothing is written. -/
def stitchTerrainEdges (noise : ℚ → ℚ → ℚ) (cfg : TerrainLevelConfig) (S : ℚ)
    (cx cz : ℤ) (lod : Option ℤ) (nbs : NeighborLODs) (hs : List ℚ) : List ℚ :=
  match lod with
  | none => hs
  | some c =>
    stitchEdge noise cfg S cx cz c nbs.west Edge.west
      (stitchEdge noise cfg S cx cz c nbs.east Edge.east
        (stitchEdge noise cfg S cx cz c nbs.south Edge.south
          (stitchEdge noise cfg S cx cz c nbs.north Edge.north hs)))

/-- The result of `createTerrainChunk`, as far as geometry is concerned:
the segment count used for the plane, the vertex height buffer, whether the
invalid-LOD diagnostic was logged, and the mesh world position. -/
structure TerrainChunkMesh where
  segments : ℕ
  heights : List ℚ
  loggedInvalidLod : Bool
  posX : ℚ
  posZ : ℚ
  deriving DecidableEq

/-- `createTerrainChunk(chunkX, chunkZ, levelConfig, lod, neighborLODs)`:
resolve the segment count (with the invalid-LOD fail-safe), sample every
vertex height from world-space noise, then stitch the edges.
`noise` stands for the module-level seeded `noise2D`; `S` is
`worldConfig.CHUNK_SIZE`. -/
def createTerrainChunk (noise : ℚ → ℚ → ℚ) (S : ℚ) (cfg : TerrainLevelConfig)
    (cx cz : ℤ) (lod : Option ℤ) (nbs : NeighborLODs) : TerrainChunkMesh :=
  let s := resolveSegments lod
  { segments := s
    heights := stitchTerrainEdges noise cfg S cx cz lod nbs
      (baseHeights noise cfg S cx cz s)
    loggedInvalidLod := lodInvalid lod
    posX := (cx : ℚ) * S
    posZ := (cz : ℚ) * S }

/-- The exported seeded noise function: the external `createNoise2D` family
applied to the normalized seed hash.  `noiseFamily` abstracts the
simplex-noise library (one 2D noise function per seed value). -/
def terrainNoise (noiseFamily : ℚ → ℚ → ℚ → ℚ) (seed : String) : ℚ → ℚ → ℚ :=
  noiseFamily (seedNorm seed)

/-- `createTerrainChunk` as called in the program: the noise function is the
module-level one derived from `worldConfig.SEED`. -/
def createTerrainChunkSeeded (noiseFamily : ℚ → ℚ → ℚ → ℚ) (seed : String)
    (S : ℚ) (cfg : TerrainLevelConfig) (cx cz : ℤ) (lod : Option ℤ)
    (nbs : NeighborLODs) : TerrainChunkMesh :=
  createTerrainChunk (terrainNoise noiseFamily seed) S cfg cx cz lod nbs

/-! ### Boundary surface of a chunk mesh

The meshes are triangle meshes; restricted to a boundary edge the surface is
the linear interpolation between consecutive edge vertices.  This is the
spec-level notion of "the height value of the mesh at a shared-boundary
world-space position" needed to compare two adjacent meshes. -/

/-- Modelled from the spec: the height of the mesh surface along the west
boundary edge (local `x = -S/2`) at world coordinate `zWorld`, for a chunk at
row `cz` — the linear interpolation between the two enclosing edge vertices.
Meaningful for `zWorld` strictly inside the chunk's z-range. -/
def westEdgeSurfaceHeight (m : TerrainChunkMesh) (S : ℚ) (cz : ℤ)
    (zWorld : ℚ) : ℚ :=
  let s := m.segments
  let t := (zWorld - (cz : ℚ) * S + S / 2) * (s : ℚ) / S
  let j := (⌊t⌋).toNat
  let frac := t - (((⌊t⌋) : ℤ) : ℚ)
  let hj := m.heights.getD (j * (s + 1)) 0
  let hj1 := m.heights.getD ((j + 1) * (s + 1)) 0
  hj + frac * (hj1 - hj)

/-- Height of the vertex on the east boundary edge (local `x = S/2`) in grid
row `r`. -/
def eastEdgeVertexHeight (m : TerrainChunkMesh) (r : ℕ) : ℚ :=
  m.heights.getD (r * (m.segments + 1) + m.segments) 0

/-! ### A concrete adjacent-chunk scenario with differing detail levels

Chunk A at `(0,0)` with detail level 2, chunk B at `(1,0)` with detail
level 1; `CHUNK_SIZE = 4`, noise frequency and amplitude 1, and the
(bounded, `(0,1]`-valued) noise function `fun _ z => 4 / (4 + z^2)`.
The shared boundary is the world-space line `x = 2`, `z ∈ [-2,2]`. -/

/-- A concrete noise function for the scenario (values in `(0, 1]`). -/
def cxNoise (_x z : ℚ) : ℚ := 4 / (4 + z ^ 2)

/-- Level configuration for the scenario. -/
def cxCfg : TerrainLevelConfig := ⟨1, 1⟩

/-- Chunk A: coordinate `(0,0)`, detail level 2, east neighbor at detail
level 1 (so its east edge is stitched). -/
def chunkA : TerrainChunkMesh :=
  createTerrainChunk cxNoise 4 cxCfg 0 0 (some 2) ⟨2, 2, 1, 2⟩

/-- Chunk B: coordinate `(1,0)`, detail level 1, west neighbor at detail
level 2 (higher, so its west edge is left alone). -/
def chunkB : TerrainChunkMesh :=
  createTerrainChunk cxNoise 4 cxCfg 1 0 (some 1) ⟨1, 1, 1, 2⟩

/-- C1: the claim that adjacent terrain chunks of differing detail levels
have exactly equal heights at every shared-boundary world-space position
fails on the code.  In the concrete scenario: (1) the stitching step changes
no height at all — `stitchEdge` re-samples the same noise formula at the
vertex's own world position, so chunk A's heights equal the unstitched
heights; (2) the boundary world position `(2, 0)` is shared by chunk A's
east edge (vertex row 1, column 2) and chunk B's west edge; (3) chunk A's
mesh has height 1 there while chunk B's mesh surface has height 1/2 there,
so the two meshes disagree at a shared-boundary position. -/
theorem stitchTerrainEdges_noop_boundary_mismatch :
    chunkA.heights = baseHeights cxNoise cxCfg 4 0 0 2
    ∧ vertexLocalX 4 2 2 + (0 : ℚ) * 4 = 2
    ∧ vertexLocalZ 4 2 1 + (0 : ℚ) * 4 = 0
    ∧ vertexLocalX 4 1 0 + (1 : ℚ) * 4 = 2
    ∧ eastEdgeVertexHeight chunkA 1 = 1
    ∧ westEdgeSurfaceHeight chunkB 4 0 0 = 1 / 2
    ∧ eastEdgeVertexHeight chunkA 1 ≠ westEdgeSurfaceHeight chunkB 4 0 0 := by
  have h1 : Int.toNat 1 = 1 := rfl
  have h2 : Int.toNat 2 = 2 := rfl
  have h3 : Int.toNat 3 = 3 := rfl
  norm_num [chunkA, chunkB, createTerrainChunk, resolveSegments, lodInvalid,
    terrainLodLevels, baseHeights, baseHeight, vertexLocalX, vertexLocalZ,
    stitchTerrainEdges, stitchEdge, stitchHeight, edgeIndex, edgeLocalX,
    edgeLocalZ, jsMod, ratTrunc, cxNoise, cxCfg, eastEdgeVertexHeight,
    westEdgeSurfaceHeight, List.range_succ, h1, h2, h3]

/-! ### Shape lemmas for the terrain generator -/

/-- A fold whose step preserves list length preserves list length. -/
theorem foldl_length_invariant {α : Type} (f : List ℚ → α → List ℚ)
    (hf : ∀ acc i, (f acc i).length = acc.length) :
    ∀ (l : List α) (hs : List ℚ), (l.foldl f hs).length = hs.length := by
  intro l
  induction l with
  | nil => intro hs; rfl
  | cons a t ih => intro hs; rw [List.foldl_cons, ih, hf]

/-- The main vertex loop writes one height per grid vertex. -/
theorem baseHeights_length (noise : ℚ → ℚ → ℚ) (cfg : TerrainLevelConfig)
    (S : ℚ) (cx cz : ℤ) (s : ℕ) :
    (baseHeights noise cfg S cx cz s).length = (s + 1) * (s + 1) := by
  simp [baseHeights]

/-- Stitching one edge never changes the number of vertices. -/
theorem stitchEdge_length (noise : ℚ → ℚ → ℚ) (cfg : TerrainLevelConfig)
    (S : ℚ) (cx cz : ℤ) (c nb : ℤ) (e : Edge) (hs : List ℚ) :
    (stitchEdge noise cfg S cx cz c nb e hs).length = hs.length := by
  unfold stitchEdge
  split
  · rfl
  · exact foldl_length_invariant _
      (fun acc i => by split <;> simp) _ hs

/-- Stitching never changes the number of vertices. -/
theorem stitchTerrainEdges_length (noise : ℚ → ℚ → ℚ)
    (cfg : TerrainLevelConfig) (S : ℚ) (cx cz : ℤ) (lod : Option ℤ)
    (nbs : NeighborLODs) (hs : List ℚ) :
    (stitchTerrainEdges noise cfg S cx cz lod nbs hs).length = hs.length := by
  cases lod with
  | none => rfl
  | some c => simp [stitchTerrainEdges, stitchEdge_length]

/-- C2: for a fixed world seed, chunk coordinate, level configuration,
chunk size, detail level and neighbor detail levels, `createTerrainChunk`
produces identical height samples (and an identical mesh) on every call:
the embedding is a pure function of exactly these inputs, the only
randomness being the noise function derived from the seed hash. -/
theorem createTerrainChunk_deterministic (noiseFamily : ℚ → ℚ → ℚ → ℚ)
    (seed : String) (S : ℚ) (cfg : TerrainLevelConfig) (cx cz : ℤ)
    (lod : Option ℤ) (nbs : NeighborLODs) :
    (createTerrainChunkSeeded noiseFamily seed S cfg cx cz lod nbs).heights =
      (createTerrainChunkSeeded noiseFamily seed S cfg cx cz lod nbs).heights
    ∧ createTerrainChunkSeeded noiseFamily seed S cfg cx cz lod nbs =
      createTerrainChunkSeeded noiseFamily seed S cfg cx cz lod nbs :=
  ⟨rfl, rfl⟩

/-- C8: an invalid detail level (non-numeric or `≤ 0`) never crashes
`createTerrainChunk`: the function falls back to the segment count of the
first configured LOD level (`terrainConfig.LOD_LEVELS[0].segments = 32`),
logs the diagnostic, and still returns a mesh with the full
`(segments+1) × (segments+1)` vertex grid at the chunk's world position. -/
theorem createTerrainChunk_invalid_lod_fallback (noise : ℚ → ℚ → ℚ)
    (S : ℚ) (cfg : TerrainLevelConfig) (cx cz : ℤ) (lod : Option ℤ)
    (nbs : NeighborLODs) (h : lodInvalid lod = true) :
    (createTerrainChunk noise S cfg cx cz lod nbs).segments =
      (terrainLodLevels.headI).segments
    ∧ (createTerrainChunk noise S cfg cx cz lod nbs).segments = 32
    ∧ (createTerrainChunk noise S cfg cx cz lod nbs).loggedInvalidLod = true
    ∧ (createTerrainChunk noise S cfg cx cz lod nbs).heights.length = 33 * 33
    ∧ (createTerrainChunk noise S cfg cx cz lod nbs).posX = (cx : ℚ) * S := by
  have hseg : resolveSegments lod = 32 := by
    unfold resolveSegments
    rw [h]
    rfl
  refine ⟨?_, ?_, ?_, ?_, rfl⟩
  · simp [createTerrainChunk, resolveSegments, h]
  · simp [createTerrainChunk, hseg]
  · simp [createTerrainChunk, h]
  · simp [createTerrainChunk, stitchTerrainEdges_length, baseHeights_length, hseg]

/-- Witness for C8 at the concrete invalid detail level `0`. -/
theorem createTerrainChunk_invalid_lod_fallback_witness :
    lodInvalid (some 0) = true
    ∧ (createTerrainChunk (fun _ _ => 0) 4 ⟨1, 1⟩ 0 0 (some 0)
        ⟨32, 32, 32, 32⟩).segments = 32 := by
  refine ⟨by decide, ?_⟩
  exact (createTerrainChunk_invalid_lod_fallback (fun _ _ => 0) 4 ⟨1, 1⟩ 0 0
    (some 0) ⟨32, 32, 32, 32⟩ (by decide)).2.1

/-! ### Object pool manager (js/managers/objectPoolManager.js)

Pools are a string-keyed table of lists of inactive objects; the list end
is the most-recent side (`push`/`pop`).  A pooled object is identified by
an id and carries the `userData.objectType` tag consulted by the type
filter.  (The type-specific visual normalization on borrow/return —
`log_fallen` rotation, tree repair, `visible` flags — touches only render
state and is not part of the pool-membership model.) -/

/-- A pooled entity: identity plus the `objectType` tag. -/
structure PoolObj where
  id : ℕ
  objType : String
  deriving DecidableEq

/-- The `this.pools` table. -/
abbrev PoolTable := List (String × List PoolObj)

/-- Property access `this.pools[poolName]`. -/
def poolLookup (k : String) : PoolTable → Option (List PoolObj)
  | [] => none
  | (k', v) :: rest => if k' = k then some v else poolLookup k rest

/-- Property update `this.pools[poolName] = v` (replaces the binding, or
creates it for a previously absent pool name). -/
def poolSet (k : String) (v : List PoolObj) : PoolTable → PoolTable
  | [] => [(k, v)]
  | (k', v') :: rest =>
    if k' = k then (k, v) :: rest else (k', v') :: poolSet k v rest

/-- The constructor's initial pools. -/
def initialPools : PoolTable :=
  [("collectibles", []), ("obstacles", []), ("tumbleweeds", []), ("enemies", [])]

/-- The `maxPoolSize` constant of `addToPool`. -/
def maxPoolSize : ℕ := 500

/-- The downward scan of `getFromPool` with a type filter: index of the
last (most recently added) element whose type matches, if any. -/
def findLastIdx : List PoolObj → String → Option ℕ
  | [], _ => none
  | o :: rest, t =>
    match findLastIdx rest t with
    | some k => some (k + 1)
    | none => if o.objType = t then some 0 else none

/-- `getFromPool(poolName, objectType)`: `null` for a missing or empty
pool; with a type filter, scan from the end and splice out the first
match; without, `pop` the last element. -/
def getFromPool (pools : PoolTable) (name : String)
    (objectType : Option String) : Option PoolObj × PoolTable :=
  match poolLookup name pools with
  | none => (none, pools)
  | some l =>
    if l.length = 0 then (none, pools)
    else
      match objectType with
      | some t =>
        match findLastIdx l t with
        | none => (none, pools)
        | some i => (l[i]?, poolSet name (l.eraseIdx i) pools)
      | none => (l.getLast?, poolSet name l.dropLast pools)

/-- `addToPool(poolName, object)`: create the pool if missing, drop (and
dispose) the oldest element when the pool has reached `maxPoolSize`, then
push the object at the most-recent end.  The second component is the
disposed object, if any. -/
def addToPool (pools : PoolTable) (name : String) (e : PoolObj) :
    PoolTable × Option PoolObj :=
  let l := (poolLookup name pools).getD []
  let evicted := if maxPoolSize ≤ l.length then l.head? else none
  let l' := if maxPoolSize ≤ l.length then l.drop 1 else l
  (poolSet name (l' ++ [e]) pools, evicted)

/-- Following the spec's words: the most recently returned pool member
whose type matches the filter (scanning from the most-recent end). -/
def lastMatch (l : List PoolObj) (t : String) : Option PoolObj :=
  l.reverse.find? (fun o => decide (o.objType = t))

/-- Looking up a key just written returns the written value. -/
theorem poolLookup_poolSet (k : String) (v : List PoolObj) :
    ∀ P : PoolTable, poolLookup k (poolSet k v P) = some v := by
  intro P
  induction P with
  | nil => simp [poolSet, poolLookup]
  | cons b rest ih =>
    obtain ⟨k', v'⟩ := b
    by_cases h : k' = k
    · simp [poolSet, h, poolLookup]
    · simp [poolSet, h, poolLookup, ih]

/-- A successful downward scan returns an in-range index. -/
theorem findLastIdx_lt_length (t : String) :
    ∀ (l : List PoolObj) (i : ℕ), findLastIdx l t = some i → i < l.length := by
  intro l
  induction l with
  | nil => intro i h; simp [findLastIdx] at h
  | cons o rest ih =>
    intro i h
    unfold findLastIdx at h
    rcases hr : findLastIdx rest t with _ | k <;> rw [hr] at h <;>
      simp only [] at h
    · simp only [List.length_cons]
      split at h
      · cases h
        omega
      · simp at h
    · simp only [List.length_cons]
      have hk := ih k hr
      simp only [Option.some.injEq] at h
      omega

/-- The element found by the downward scan is the last match: the spec's
"most recently returned matching entity". -/
theorem findLastIdx_eq_lastMatch (t : String) :
    ∀ l : List PoolObj,
      (match findLastIdx l t with
       | none => none
       | some i => l[i]?) = lastMatch l t := by
  intro l
  induction l with
  | nil => simp [findLastIdx, lastMatch]
  | cons o rest ih =>
    unfold findLastIdx
    rcases hr : findLastIdx rest t with _ | k
    · rw [hr] at ih
      have ihn : List.find? (fun o => decide (o.objType = t)) rest.reverse
          = none := by
        have h' := ih.symm
        simpa [lastMatch] using h'
      by_cases ho : o.objType = t
      · simp [ho, lastMatch, List.find?_append, ihn]
      · simp [ho, lastMatch, List.find?_append, ihn]
    · rw [hr] at ih
      simp only [] at ih
      have hk := findLastIdx_lt_length t rest k hr
      simp only [List.getElem?_cons_succ]
      rw [ih]
      rcases hlm : List.find? (fun o => decide (o.objType = t)) rest.reverse
        with _ | x
      · exfalso
        have : lastMatch rest t = none := by simpa [lastMatch] using hlm
        rw [this] at ih
        simp [List.getElem?_eq_getElem hk] at ih
      · simp [lastMatch, List.find?_append, hlm]

/-- Evaluation of `getFromPool` without a type filter on a nonempty pool:
pop the most recent element. -/
theorem getFromPool_pop (Q : PoolTable) (n : String) (v : List PoolObj)
    (hv : poolLookup n Q = some v) (hne : v ≠ []) :
    getFromPool Q n none = (v.getLast?, poolSet n v.dropLast Q) := by
  unfold getFromPool
  rw [hv]
  simp [List.length_eq_zero, hne]

/-- Evaluation of `getFromPool` with a type filter in terms of the
downward scan. -/
theorem getFromPool_filter (Q : PoolTable) (n t : String) (v : List PoolObj)
    (hv : poolLookup n Q = some v) :
    getFromPool Q n (some t) =
      match findLastIdx v t with
      | none => (none, Q)
      | some i => (v[i]?, poolSet n (v.eraseIdx i) Q) := by
  unfold getFromPool
  rw [hv]
  by_cases hz : v.length = 0
  · have hvnil : v = [] := List.length_eq_zero.mp hz
    subst hvnil
    simp [findLastIdx]
  · simp [hz]

/-- C6: borrowing from a pool is last-in-first-out.  Immediately after
`addToPool(poolName, e)`, a filterless `getFromPool(poolName)` returns `e`;
and `getFromPool(poolName, objectType)` returns the most recently added
pool member whose type matches (`lastMatch`), removing exactly that element
(the one at the last matching index) from the pool, or returns `null`
leaving the pools unchanged when no member matches. -/
theorem getFromPool_lifo (P : PoolTable) (n t : String) (e : PoolObj)
    (l : List PoolObj) (hl : poolLookup n P = some l) :
    (getFromPool (addToPool P n e).fst n none).fst = some e
    ∧ (getFromPool P n (some t)).fst = lastMatch l t
    ∧ (lastMatch l t = none → getFromPool P n (some t) = (none, P))
    ∧ poolLookup n (getFromPool P n (some t)).snd =
        some (match findLastIdx l t with
              | none => l
              | some i => l.eraseIdx i) := by
  have key := findLastIdx_eq_lastMatch t l
  have hadd : poolLookup n (addToPool P n e).fst =
      some ((if maxPoolSize ≤ l.length then l.drop 1 else l) ++ [e]) := by
    simp [addToPool, poolLookup_poolSet, hl]
  refine ⟨?_, ?_, ?_, ?_⟩
  · rw [getFromPool_pop _ n _ hadd (by simp)]
    simp
  · rw [getFromPool_filter P n t l hl]
    rcases hf : findLastIdx l t with _ | i <;> simp [← key] <;> rw [hf]
  · intro hnone
    have hf : findLastIdx l t = none := by
      rcases hff : findLastIdx l t with _ | i
      · rfl
      · exfalso
        have hi := findLastIdx_lt_length t l i hff
        rw [hff, hnone] at key
        simp [List.getElem?_eq_getElem hi] at key
    rw [getFromPool_filter P n t l hl, hf]
  · rw [getFromPool_filter P n t l hl]
    rcases hf : findLastIdx l t with _ | i
    · simpa using hl
    · simp [poolLookup_poolSet]

/-- Witness for C6 on a concrete pool table. -/
theorem getFromPool_lifo_witness :
    poolLookup "collectibles"
        [("collectibles", [⟨1, "coin"⟩, ⟨2, "magnet"⟩, ⟨3, "coin"⟩])] =
      some [⟨1, "coin"⟩, ⟨2, "magnet"⟩, ⟨3, "coin"⟩]
    ∧ (getFromPool
        (addToPool
          [("collectibles", [⟨1, "coin"⟩, ⟨2, "magnet"⟩, ⟨3, "coin"⟩])]
          "collectibles" ⟨9, "coin"⟩).fst
        "collectibles" none).fst = some ⟨9, "coin"⟩ := by
  have h : poolLookup "collectibles"
      [("collectibles", [⟨1, "coin"⟩, ⟨2, "magnet"⟩, ⟨3, "coin"⟩])] =
      some [⟨1, "coin"⟩, ⟨2, "magnet"⟩, ⟨3, "coin"⟩] := by
    simp [poolLookup]
  exact ⟨h, (getFromPool_lifo _ "collectibles" "coin" ⟨9, "coin"⟩ _ h).1⟩

/-- C7: pool size is bounded with first-in-first-out eviction.
`addToPool(poolName, e)` appends `e` at the most-recent end; when the pool
has reached the maximum size (500), the oldest element is removed and
disposed before appending; consequently a pool that respected the bound
still respects it after the call. -/
theorem addToPool_bounded (P : PoolTable) (n : String) (e : PoolObj)
    (hb : ((poolLookup n P).getD []).length ≤ 500) :
    poolLookup n (addToPool P n e).fst =
      some ((if 500 ≤ ((poolLookup n P).getD []).length
             then ((poolLookup n P).getD []).drop 1
             else (poolLookup n P).getD []) ++ [e])
    ∧ (addToPool P n e).snd =
        (if 500 ≤ ((poolLookup n P).getD []).length
         then ((poolLookup n P).getD []).head?
         else none)
    ∧ ((poolLookup n (addToPool P n e).fst).getD []).length ≤ 500 := by
  refine ⟨by simp [addToPool, poolLookup_poolSet, maxPoolSize], by rfl, ?_⟩
  have h1 : poolLookup n (addToPool P n e).fst =
      some ((if 500 ≤ ((poolLookup n P).getD []).length
             then ((poolLookup n P).getD []).drop 1
             else (poolLookup n P).getD []) ++ [e]) := by
    simp [addToPool, poolLookup_poolSet, maxPoolSize]
  rw [h1]
  split <;> simp <;> omega

/-- Witness for C7 on a concrete pool table. -/
theorem addToPool_bounded_witness :
    ((poolLookup "obstacles" initialPools).getD []).length ≤ 500
    ∧ ((poolLookup "obstacles"
        (addToPool initialPools "obstacles" ⟨7, "rock_small"⟩).fst).getD
          []).length ≤ 500 := by
  have hb : ((poolLookup "obstacles" initialPools).getD []).length ≤ 500 := by
    simp [initialPools, poolLookup]
  exact ⟨hb, (addToPool_bounded initialPools "obstacles" ⟨7, "rock_small"⟩ hb).2.2⟩

/-! ### Chunk content manager (js/managers/chunkContentManager.js)

`collectObject(chunkKey, objectIndex)` consults the chunk's object data
array and, for a valid entry, removes the mesh from the spatial grid and
scene, returns it to the `collectibles` pool, splices it from the chunk's
collectibles list, and marks the entry collected.

The per-entry state is modelled by the three fields `collectObject` reads
or writes (`collidable`, `mesh`, `collected`); position/type/score fields
are untouched by collection.  The `SpatialGrid` class itself is not among
the examined sources; its `remove(entity)` is modelled from the spec
(§4.2): deleting the entity's reference from the index, here `List.erase`
on the set of indexed references. -/

/-- The slice of a chunk object-data entry consulted by `collectObject`. -/
structure ContentEntry where
  collidable : Bool
  collected : Bool
  mesh : Option PoolObj
  deriving DecidableEq

/-- A loaded chunk: its object-data array and the
`contentManagerData.collectibles` mesh list. -/
structure ChunkData where
  objects : List ContentEntry
  collectiblesList : List PoolObj
  deriving DecidableEq

/-- The state touched by `collectObject`: loaded chunks, spatial grid,
scene, and the object pools. -/
structure ContentState where
  chunks : List (String × ChunkData)
  grid : List PoolObj
  scene : List PoolObj
  pools : PoolTable
  deriving DecidableEq

/-- Chunk map access (`getChunkData(chunkKey)`). -/
def chunkGet (k : String) : List (String × ChunkData) → Option ChunkData
  | [] => none
  | (k', v) :: rest => if k' = k then some v else chunkGet k rest

/-- Chunk map update. -/
def chunkPut (k : String) (v : ChunkData) :
    List (String × ChunkData) → List (String × ChunkData)
  | [] => [(k, v)]
  | (k', v') :: rest =>
    if k' = k then (k, v) :: rest else (k', v') :: chunkPut k v rest

/-- Looking up a chunk key just written returns the written chunk. -/
theorem chunkGet_chunkPut (k : String) (v : ChunkData) :
    ∀ cs : List (String × ChunkData), chunkGet k (chunkPut k v cs) = some v := by
  intro cs
  induction cs with
  | nil => simp [chunkPut, chunkGet]
  | cons b rest ih =>
    obtain ⟨k', v'⟩ := b
    by_cases h : k' = k
    · simp [chunkPut, h, chunkGet]
    · simp [chunkPut, h, chunkGet, ih]

/-- `collectObject(chunkKey, objectIndex)`: guards in source order
(chunk data present, index in `[0, length)`, entry non-collidable with a
live mesh and not yet collected), then performs the removal/return and
marks the entry collected; every other path returns `false` with the state
untouched. -/
def collectObject (s : ContentState) (key : String) (idx : ℤ) :
    Bool × ContentState :=
  match chunkGet key s.chunks with
  | none => (false, s)
  | some cd =>
    if 0 ≤ idx ∧ idx < (cd.objects.length : ℤ) then
      match cd.objects[idx.toNat]? with
      | none => (false, s)
      | some obj =>
        if obj.collidable then (false, s)
        else
          match obj.mesh with
          | none => (false, s)
          | some m =>
            if obj.collected then (false, s)
            else
              (true,
                { chunks := chunkPut key
                    { objects := cd.objects.set idx.toNat
                        { obj with mesh := none, collected := true }
                      collectiblesList := cd.collectiblesList.erase m }
                    s.chunks
                  grid := s.grid.erase m
                  scene := s.scene.erase m
                  pools := (addToPool s.pools "collectibles" m).fst })
    else (false, s)

/-- C5: `collectObject` is idempotent and total.  For a valid, uncollected,
non-collidable entry with a live mesh, the first call returns `true`,
removes the entity from the spatial grid exactly once (its reference count
drops by one), returns the mesh to the `collectibles` pool (it becomes the
pool's most-recent element), and marks the entry collected with the mesh
reference cleared; the second call for the same entry returns `false`
without mutating the state; and a call with an out-of-range index returns
`false` without mutating chunk, grid, scene, or pool state. -/
theorem collectObject_spec (s : ContentState) (key : String) (i : ℕ) (j : ℤ)
    (cd : ChunkData) (obj : ContentEntry) (m : PoolObj)
    (hcd : chunkGet key s.chunks = some cd)
    (hobj : cd.objects[i]? = some obj)
    (hcol : obj.collidable = false)
    (hnc : obj.collected = false)
    (hm : obj.mesh = some m)
    (hmem : m ∈ s.grid)
    (hj : j < 0 ∨ (cd.objects.length : ℤ) ≤ j) :
    (collectObject s key (i : ℤ)).fst = true
    ∧ (collectObject s key (i : ℤ)).snd.grid = s.grid.erase m
    ∧ (collectObject s key (i : ℤ)).snd.grid.count m + 1 = s.grid.count m
    ∧ ((poolLookup "collectibles"
        (collectObject s key (i : ℤ)).snd.pools).getD []).getLast? = some m
    ∧ chunkGet key (collectObject s key (i : ℤ)).snd.chunks =
        some { objects := cd.objects.set i
                 { obj with mesh := none, collected := true }
               collectiblesList := cd.collectiblesList.erase m }
    ∧ (cd.objects.set i { obj with mesh := none, collected := true })[i]? =
        some { collidable := obj.collidable, collected := true, mesh := none }
    ∧ collectObject (collectObject s key (i : ℤ)).snd key (i : ℤ) =
        (false, (collectObject s key (i : ℤ)).snd)
    ∧ collectObject s key j = (false, s) := by
  obtain ⟨hlen, _⟩ := List.getElem?_eq_some.mp hobj
  have hbounds : (0 : ℤ) ≤ (i : ℤ) ∧ (i : ℤ) < (cd.objects.length : ℤ) :=
    ⟨Int.natCast_nonneg i, by exact_mod_cast hlen⟩
  have hrun : collectObject s key (i : ℤ) =
      (true,
        { chunks := chunkPut key
            { objects := cd.objects.set i
                { obj with mesh := none, collected := true }
              collectiblesList := cd.collectiblesList.erase m }
            s.chunks
          grid := s.grid.erase m
          scene := s.scene.erase m
          pools := (addToPool s.pools "collectibles" m).fst }) := by
    simp only [collectObject, hcd]
    rw [if_pos hbounds]
    simp only [Int.toNat_natCast]
    rw [hobj]
    simp [hcol, hnc, hm]
  have hset : (cd.objects.set i
      { obj with mesh := none, collected := true })[i]? =
      some { collidable := obj.collidable, collected := true, mesh := none } := by
    simp [List.getElem?_set_self, hlen]
  refine ⟨by rw [hrun], by rw [hrun], ?_, ?_, ?_, hset, ?_, ?_⟩
  · rw [hrun]
    have h1 := List.count_erase_self m s.grid
    have h2 : 0 < s.grid.count m := List.count_pos_iff.mpr hmem
    simp only []
    omega
  · rw [hrun]
    simp only []
    simp [addToPool, poolLookup_poolSet]
  · rw [hrun]
    simp only []
    rw [chunkGet_chunkPut]
  · rw [hrun]
    simp only [collectObject, chunkGet_chunkPut]
    have hb2 : (0 : ℤ) ≤ (i : ℤ) ∧ (i : ℤ) <
        ((cd.objects.set i { obj with mesh := none, collected := true }).length
          : ℤ) := by
      simpa using hbounds
    rw [if_pos hb2]
    simp only [Int.toNat_natCast]
    rw [hset]
    simp [hcol]
  · have hnj : ¬((0 : ℤ) ≤ j ∧ j < (cd.objects.length : ℤ)) := by omega
    simp only [collectObject, hcd]
    rw [if_neg hnj]

/-- Witness for C5 on a concrete one-entry chunk. -/
theorem collectObject_spec_witness :
    chunkGet "0,0" [("0,0", ⟨[⟨false, false, some ⟨5, "coin"⟩⟩], [⟨5, "coin"⟩]⟩)]
      = some ⟨[⟨false, false, some ⟨5, "coin"⟩⟩], [⟨5, "coin"⟩]⟩
    ∧ (⟨5, "coin"⟩ : PoolObj) ∈ [(⟨5, "coin"⟩ : PoolObj)]
    ∧ ((-1 : ℤ) < 0 ∨ ((1 : ℕ) : ℤ) ≤ (-1 : ℤ))
    ∧ (collectObject
        ⟨[("0,0", ⟨[⟨false, false, some ⟨5, "coin"⟩⟩], [⟨5, "coin"⟩]⟩)],
          [⟨5, "coin"⟩], [⟨5, "coin"⟩], initialPools⟩
        "0,0" ((0 : ℕ) : ℤ)).fst = true := by
  have hcd : chunkGet "0,0"
      [("0,0", (⟨[⟨false, false, some ⟨5, "coin"⟩⟩], [⟨5, "coin"⟩]⟩ : ChunkData))]
      = some ⟨[⟨false, false, some ⟨5, "coin"⟩⟩], [⟨5, "coin"⟩]⟩ := by
    simp [chunkGet]
  refine ⟨hcd, by simp, by left; norm_num, ?_⟩
  exact (collectObject_spec
    ⟨[("0,0", ⟨[⟨false, false, some ⟨5, "coin"⟩⟩], [⟨5, "coin"⟩]⟩)],
      [⟨5, "coin"⟩], [⟨5, "coin"⟩], initialPools⟩
    "0,0" 0 (-1)
    ⟨[⟨false, false, some ⟨5, "coin"⟩⟩], [⟨5, "coin"⟩]⟩
    ⟨false, false, some ⟨5, "coin"⟩⟩ ⟨5, "coin"⟩
    hcd rfl rfl rfl rfl (by simp) (by left; norm_num)).1

/-- C10: only non-collidable entries are collectible.  For every in-range
index whose entry has the collidable flag set, `collectObject` returns
`false` and leaves the entire state (chunks, grid, scene, pools)
unchanged. -/
theorem collectObject_collidable_rejected (s : ContentState) (key : String)
    (i : ℕ) (cd : ChunkData) (obj : ContentEntry)
    (hcd : chunkGet key s.chunks = some cd)
    (hobj : cd.objects[i]? = some obj)
    (hcol : obj.collidable = true) :
    collectObject s key (i : ℤ) = (false, s) := by
  obtain ⟨hlen, _⟩ := List.getElem?_eq_some.mp hobj
  have hbounds : (0 : ℤ) ≤ (i : ℤ) ∧ (i : ℤ) < (cd.objects.length : ℤ) :=
    ⟨Int.natCast_nonneg i, by exact_mod_cast hlen⟩
  simp only [collectObject, hcd]
  rw [if_pos hbounds]
  simp only [Int.toNat_natCast]
  rw [hobj]
  simp [hcol]

/-- Witness for C10 on a concrete one-entry chunk holding an obstacle. -/
theorem collectObject_collidable_rejected_witness :
    chunkGet "0,0" [("0,0", ⟨[⟨true, false, some ⟨6, "rock_small"⟩⟩], []⟩)]
      = some ⟨[⟨true, false, some ⟨6, "rock_small"⟩⟩], []⟩
    ∧ collectObject
        ⟨[("0,0", ⟨[⟨true, false, some ⟨6, "rock_small"⟩⟩], []⟩)],
          [⟨6, "rock_small"⟩], [⟨6, "rock_small"⟩], initialPools⟩
        "0,0" ((0 : ℕ) : ℤ) =
      (false,
        ⟨[("0,0", ⟨[⟨true, false, some ⟨6, "rock_small"⟩⟩], []⟩)],
          [⟨6, "rock_small"⟩], [⟨6, "rock_small"⟩], initialPools⟩) := by
  have hcd : chunkGet "0,0"
      [("0,0", (⟨[⟨true, false, some ⟨6, "rock_small"⟩⟩], []⟩ : ChunkData))]
      = some ⟨[⟨true, false, some ⟨6, "rock_small"⟩⟩], []⟩ := by
    simp [chunkGet]
  exact ⟨hcd,
    collectObject_collidable_rejected
      ⟨[("0,0", ⟨[⟨true, false, some ⟨6, "rock_small"⟩⟩], []⟩)],
        [⟨6, "rock_small"⟩], [⟨6, "rock_small"⟩], initialPools⟩
      "0,0" 0
      ⟨[⟨true, false, some ⟨6, "rock_small"⟩⟩], []⟩
      ⟨true, false, some ⟨6, "rock_small"⟩⟩
      hcd rfl rfl⟩

/-! ### Object generator (js/generators/objectGenerator.js)

`generateObjectsForChunk(chunkX, chunkZ, levelConfig)` seeds a per-chunk
PRNG from the string `` `${SEED}_objects_chunk_${chunkX}_${chunkZ}` `` and
places the configured object types and enemies by shuffled-grid rejection
sampling.  The external alea PRNG is modelled as a seed-indexed stream
`rngOf : String → ℕ → ℚ`; each `rng()` call consumes the next stream
element, threaded through the computation as an index. -/

/-- One entry of `levelConfig.OBJECT_TYPES` (destructured at the top of the
per-type loop; `scaleRange` is split into its two components). -/
structure ObjectTypeSpec where
  type : String
  density : ℚ
  minDistance : ℚ
  verticalOffset : ℚ
  scaleMin : ℚ
  scaleMax : ℚ
  randomRotationY : Bool
  collidable : Bool
  scoreValue : ℚ
  maxPlacementAttempts : ℕ
  deriving DecidableEq

/-- One entry of `levelConfig.ENEMY_PROPERTIES`; `none` fields take the
destructuring defaults `minDistance = 10`, `verticalOffset = 0`,
`maxPlacementAttempts = 40`. -/
structure EnemyProps where
  minDistance : Option ℚ
  verticalOffset : Option ℚ
  maxPlacementAttempts : Option ℕ
  deriving DecidableEq

/-- The part of a level configuration consumed by the object generator. -/
structure LevelConfig where
  objectTypes : List ObjectTypeSpec
  enemyTypes : List String
  enemyProps : List (String × EnemyProps)
  enemySpawnDensity : ℚ
  noiseFrequency : ℚ
  noiseAmplitude : ℚ
  deriving DecidableEq

/-- One generated object-data record (the `mesh: null` field and the
per-axis scale vector `(s, s, s)` are represented by the scalar factor). -/
structure ObjectData where
  posX : ℚ
  posY : ℚ
  posZ : ℚ
  type : String
  scale : ℚ
  rotationY : ℚ
  collected : Bool
  collidable : Bool
  scoreValue : ℚ
  minDistance : ℚ
  deriving DecidableEq

/-- `ENEMY_PROPERTIES[chosenType]` property access. -/
def propsLookup (t : String) : List (String × EnemyProps) → Option EnemyProps
  | [] => none
  | (k, v) :: rest => if k = t then some v else propsLookup t rest

/-- The per-chunk generation environment: the chunk's random stream, chunk
size and world offsets, squared spawn-safe radius, and the noise data. -/
structure GenEnv where
  u : ℕ → ℚ
  S : ℚ
  ox : ℚ
  oz : ℚ
  safeSq : ℚ
  noise : ℚ → ℚ → ℚ
  freq : ℚ
  amp : ℚ

/-- `isPositionValid(worldX, worldZ, minDistance, playerSpawnPoint,
playerSpawnSafeRadiusSq, chunkObjectsData)`: reject candidates inside the
spawn keep-out disc around `(x, z) = (0, 5)` or closer to an existing entry
than the larger of the two required spacings. -/
def isPositionValid (env : GenEnv) (wx wz minD : ℚ)
    (data : List ObjectData) : Bool :=
  if (wx - 0) * (wx - 0) + (wz - 5) * (wz - 5) < env.safeSq then false
  else
    data.all fun e =>
      !decide ((wx - e.posX) * (wx - e.posX) + (wz - e.posZ) * (wz - e.posZ) <
        max (minD * minD) (e.minDistance * e.minDistance))

/-- The destructuring swap `[points[i], points[j]] = [points[j], points[i]]`
(identity when an index is out of range). -/
def listSwap {α : Type} (l : List α) (i j : ℕ) : List α :=
  match l[i]?, l[j]? with
  | some a, some b => (l.set i b).set j a
  | _, _ => l

/-- The Fisher–Yates shuffle loop, counting `i` down from
`points.length - 1` to `1`; each step draws `j = ⌊rng() * (i+1)⌋` and
swaps. -/
def fyLoop (u : ℕ → ℚ) : ℕ → List (ℕ × ℕ) → ℕ → List (ℕ × ℕ) × ℕ
  | 0, pts, k => (pts, k)
  | i + 1, pts, k =>
    let j := (⌊u k * ((i : ℚ) + 2)⌋).toNat
    fyLoop u i (listSwap pts (i + 1) j) (k + 1)

/-- The candidate loop of `findValidPosition`: for each shuffled grid cell
draw a jittered point (two `rng()` calls) and accept the first valid one. -/
def tryPoints (env : GenEnv) (minD cell : ℚ) (data : List ObjectData) :
    List (ℕ × ℕ) → ℕ → Option (ℚ × ℚ) × ℕ
  | [], k => (none, k)
  | p :: rest, k =>
    let wx := ((p.1 : ℚ) + env.u k) * cell - env.S / 2 + env.ox
    let wz := ((p.2 : ℚ) + env.u (k + 1)) * cell - env.S / 2 + env.oz
    if isPositionValid env wx wz minD data then (some (wx, wz), k + 2)
    else tryPoints env minD cell data rest (k + 2)

/-- `findValidPosition(rng, chunkOffsetX, chunkOffsetZ, minDistance, ...,
chunkObjectsData, maxAttempts)`: build the `⌈√maxAttempts⌉²` cell grid,
shuffle the visit order, and try one jittered candidate per cell. -/
def findValidPosition (env : GenEnv) (minD : ℚ) (data : List ObjectData)
    (maxAttempts : ℕ) (k : ℕ) : Option (ℚ × ℚ) × ℕ :=
  let g := jsCeilSqrt maxAttempts
  let cell := env.S / (g : ℚ)
  let pts := (List.range g).flatMap fun i => (List.range g).map fun j => (i, j)
  let r := fyLoop env.u (pts.length - 1) pts k
  tryPoints env minD cell data r.1 r.2

/-- The object-data record pushed for a successful non-enemy placement. -/
def placeEntry (env : GenEnv) (spec : ObjectTypeSpec) (wx wz scaleF rotY : ℚ) :
    ObjectData :=
  let terrainY := env.noise (wx * env.freq) (wz * env.freq) * env.amp
  { posX := wx, posY := terrainY + spec.verticalOffset, posZ := wz
    type := spec.type, scale := scaleF, rotationY := rotY
    collected := false, collidable := spec.collidable
    scoreValue := spec.scoreValue, minDistance := spec.minDistance }

/-- The inner placement loop (`for i in 0..numObjects`) for one object-type
specification; a failed search only logs and skips. -/
def placeLoop (env : GenEnv) (spec : ObjectTypeSpec) :
    ℕ → List ObjectData → ℕ → List ObjectData × ℕ
  | 0, data, k => (data, k)
  | n + 1, data, k =>
    match findValidPosition env spec.minDistance data spec.maxPlacementAttempts
        k with
    | (some (wx, wz), k₁) =>
      let scaleF := spec.scaleMin + env.u k₁ * (spec.scaleMax - spec.scaleMin)
      let rotY := if spec.randomRotationY then env.u (k₁ + 1) * mathPI * 2
        else 0
      let k₂ := if spec.randomRotationY then k₁ + 2 else k₁ + 1
      placeLoop env spec n (data ++ [placeEntry env spec wx wz scaleF rotY]) k₂
    | (none, k₁) => placeLoop env spec n data k₁

/-- The outer loop over `levelConfig.OBJECT_TYPES`: one `rng()` draw fixes
the ±20 % randomized count, then the placement loop runs. -/
def specsLoop (env : GenEnv) :
    List ObjectTypeSpec → List ObjectData → ℕ → List ObjectData × ℕ
  | [], data, k => (data, k)
  | spec :: rest, data, k =>
    let n := (⌊env.S * env.S * spec.density *
      (4 / 5 + env.u k * (2 / 5))⌋).toNat
    let r := placeLoop env spec n data (k + 1)
    specsLoop env rest r.1 r.2

/-- The enemy generation loop: draw a type index, look up its properties
(skipping unknown types), and place with `collidable = true`. -/
def enemyLoop (env : GenEnv) (cfg : LevelConfig) :
    ℕ → List ObjectData → ℕ → List ObjectData × ℕ
  | 0, data, k => (data, k)
  | n + 1, data, k =>
    let idx := (⌊env.u k * (cfg.enemyTypes.length : ℚ)⌋).toNat
    match cfg.enemyTypes[idx]? with
    | none => enemyLoop env cfg n data (k + 1)
    | some t =>
      match propsLookup t cfg.enemyProps with
      | none => enemyLoop env cfg n data (k + 1)
      | some props =>
        let minD := props.minDistance.getD 10
        let vOff := props.verticalOffset.getD 0
        let maxAtt := props.maxPlacementAttempts.getD 40
        match findValidPosition env minD data maxAtt (k + 1) with
        | (some (wx, wz), k₁) =>
          let terrainY := env.noise (wx * env.freq) (wz * env.freq) * env.amp
          enemyLoop env cfg n
            (data ++ [{ posX := wx, posY := terrainY + vOff, posZ := wz
                        type := t, scale := 1
                        rotationY := env.u k₁ * mathPI * 2
                        collected := false, collidable := true
                        scoreValue := 0, minDistance := minD }])
            (k₁ + 1)
        | (none, k₁) => enemyLoop env cfg n data k₁

/-- The per-chunk PRNG seed string
`` `${SEED}_objects_chunk_${chunkX}_${chunkZ}` ``. -/
def chunkSeedString (seed : String) (cx cz : ℤ) : String :=
  seed ++ "_objects_chunk_" ++ toString cx ++ "_" ++ toString cz

/-- `generateObjectsForChunk(chunkX, chunkZ, levelConfig)`: the full
generation pipeline.  `rngOf` abstracts `prng_alea` (one deterministic
stream per seed string); `S` is `worldConfig.CHUNK_SIZE` and `safeRadius`
is `worldConfig.PLAYER_SPAWN_SAFE_RADIUS`. -/
def generateObjectsForChunk (rngOf : String → ℕ → ℚ) (seed : String)
    (S safeRadius : ℚ) (noise : ℚ → ℚ → ℚ) (cfg : LevelConfig) (cx cz : ℤ) :
    List ObjectData :=
  let env : GenEnv :=
    { u := rngOf (chunkSeedString seed cx cz)
      S := S, ox := (cx : ℚ) * S, oz := (cz : ℚ) * S
      safeSq := safeRadius * safeRadius
      noise := noise, freq := cfg.noiseFrequency, amp := cfg.noiseAmplitude }
  let r := specsLoop env cfg.objectTypes [] 0
  if 0 < cfg.enemyTypes.length then
    let n := (⌊S * S * cfg.enemySpawnDensity *
      (4 / 5 + env.u r.2 * (2 / 5))⌋).toNat
    (enemyLoop env cfg n r.1 (r.2 + 1)).1
  else r.1

/-- C3: `generateObjectsForChunk` is deterministic.  Two calls with the
same world seed, chunk coordinates, chunk size, spawn-safe radius, noise
function and level configuration return identical object-data lists — the
same length and, at every index, the same record (position, type, scale,
rotationY, collidable flag, score value) in the same order; the per-chunk
random sequence is derived only from the seed string and the chunk
coordinates. -/
theorem generateObjectsForChunk_deterministic (rngOf : String → ℕ → ℚ)
    (seed : String) (S safeRadius : ℚ) (noise : ℚ → ℚ → ℚ)
    (cfg : LevelConfig) (cx cz : ℤ) (i : ℕ) :
    generateObjectsForChunk rngOf seed S safeRadius noise cfg cx cz =
      generateObjectsForChunk rngOf seed S safeRadius noise cfg cx cz
    ∧ (generateObjectsForChunk rngOf seed S safeRadius noise cfg cx cz).length
      = (generateObjectsForChunk rngOf seed S safeRadius noise cfg cx cz).length
    ∧ (generateObjectsForChunk rngOf seed S safeRadius noise cfg cx cz)[i]?
      = (generateObjectsForChunk rngOf seed S safeRadius noise cfg cx cz)[i]? :=
  ⟨rfl, rfl, rfl⟩

/-! ### The spacing invariant (C4) -/

/-- Two entries respect each other's spacing: their squared XZ distance is
at least the square of the larger of the two `minDistance` values. -/
def spacedOK (a b : ObjectData) : Prop :=
  max a.minDistance b.minDistance * max a.minDistance b.minDistance ≤
    (a.posX - b.posX) * (a.posX - b.posX) +
    (a.posZ - b.posZ) * (a.posZ - b.posZ)

/-- For nonnegative values the square of the max is the max of the
squares. -/
theorem max_mul_self_of_nonneg (a b : ℚ) (ha : 0 ≤ a) (hb : 0 ≤ b) :
    max a b * max a b = max (a * a) (b * b) := by
  rcases le_total a b with h | h
  · rw [max_eq_right h, max_eq_right (mul_self_le_mul_self ha h)]
  · rw [max_eq_left h, max_eq_left (mul_self_le_mul_self hb h)]

/-- A candidate accepted by `isPositionValid` keeps the required squared
distance from every existing entry. -/
theorem isPositionValid_spacing (env : GenEnv) (wx wz minD : ℚ)
    (data : List ObjectData)
    (h : isPositionValid env wx wz minD data = true) :
    ∀ e ∈ data,
      max (minD * minD) (e.minDistance * e.minDistance) ≤
        (wx - e.posX) * (wx - e.posX) + (wz - e.posZ) * (wz - e.posZ) := by
  unfold isPositionValid at h
  split at h
  · simp at h
  · intro e he
    have h2 := List.all_eq_true.mp h e he
    simpa [not_lt] using h2

/-- A position returned by the candidate loop is valid for the data it was
checked against. -/
theorem tryPoints_valid (env : GenEnv) (minD cell : ℚ)
    (data : List ObjectData) :
    ∀ (pts : List (ℕ × ℕ)) (k k' : ℕ) (wx wz : ℚ),
      tryPoints env minD cell data pts k = (some (wx, wz), k') →
      isPositionValid env wx wz minD data = true := by
  intro pts
  induction pts with
  | nil => intro k k' wx wz h; simp [tryPoints] at h
  | cons p rest ih =>
    intro k k' wx wz h
    simp only [tryPoints] at h
    split at h
    · rename_i hvalid
      cases h
      exact hvalid
    · exact ih _ _ _ _ h

/-- A position returned by `findValidPosition` is valid for the data it was
checked against. -/
theorem findValidPosition_valid (env : GenEnv) (minD : ℚ)
    (data : List ObjectData) (maxAttempts k k' : ℕ) (wx wz : ℚ)
    (h : findValidPosition env minD data maxAttempts k = (some (wx, wz), k')) :
    isPositionValid env wx wz minD data = true := by
  unfold findValidPosition at h
  exact tryPoints_valid env minD _ data _ _ _ wx wz h

/-- The generation invariant: entries are pairwise spaced and all required
spacings are nonnegative. -/
def goodData (l : List ObjectData) : Prop :=
  List.Pairwise spacedOK l ∧ ∀ e ∈ l, 0 ≤ e.minDistance

/-- Appending an entry that was validated against the whole list preserves
the invariant. -/
theorem goodData_append (data : List ObjectData) (a : ObjectData)
    (hg : goodData data) (ha : 0 ≤ a.minDistance)
    (hval : ∀ e ∈ data,
      max (a.minDistance * a.minDistance)
          (e.minDistance * e.minDistance) ≤
        (a.posX - e.posX) * (a.posX - e.posX) +
        (a.posZ - e.posZ) * (a.posZ - e.posZ)) :
    goodData (data ++ [a]) := by
  obtain ⟨hp, hn⟩ := hg
  constructor
  · rw [List.pairwise_append]
    refine ⟨hp, by simp, ?_⟩
    intro e he b hb
    rw [List.mem_singleton] at hb
    rw [hb]
    unfold spacedOK
    have h1 := hval e he
    have h2 := hn e he
    rw [max_mul_self_of_nonneg _ _ h2 ha]
    have hx : (a.posX - e.posX) * (a.posX - e.posX) =
        (e.posX - a.posX) * (e.posX - a.posX) := by ring
    have hz : (a.posZ - e.posZ) * (a.posZ - e.posZ) =
        (e.posZ - a.posZ) * (e.posZ - a.posZ) := by ring
    rw [hx, hz, max_comm] at h1
    exact h1
  · intro e he
    rcases List.mem_append.mp he with h | h
    · exact hn e h
    · rw [List.mem_singleton] at h
      subst h
      exact ha

/-- The placement loop for one object type preserves the invariant. -/
theorem placeLoop_good (env : GenEnv) (spec : ObjectTypeSpec)
    (hs : 0 ≤ spec.minDistance) :
    ∀ (n : ℕ) (data : List ObjectData) (k : ℕ),
      goodData data → goodData (placeLoop env spec n data k).1 := by
  intro n
  induction n with
  | zero => intro data k h; exact h
  | succ n ih =>
    intro data k h
    rcases hr : findValidPosition env spec.minDistance data
        spec.maxPlacementAttempts k with ⟨o, k₁⟩
    cases o with
    | none =>
      simp only [placeLoop, hr]
      exact ih data k₁ h
    | some pos =>
      obtain ⟨wx, wz⟩ := pos
      simp only [placeLoop, hr]
      have hval := isPositionValid_spacing env wx wz spec.minDistance data
        (findValidPosition_valid env spec.minDistance data
          spec.maxPlacementAttempts k k₁ wx wz hr)
      apply ih
      apply goodData_append data _ h
      · simpa [placeEntry] using hs
      · intro e he
        simpa [placeEntry] using hval e he

/-- A successful `ENEMY_PROPERTIES` lookup returns a configured binding. -/
theorem propsLookup_mem (t : String) :
    ∀ (l : List (String × EnemyProps)) (p : EnemyProps),
      propsLookup t l = some p → (t, p) ∈ l := by
  intro l
  induction l with
  | nil => intro p h; simp [propsLookup] at h
  | cons q rest ih =>
    obtain ⟨k, v⟩ := q
    intro p h
    unfold propsLookup at h
    split at h
    · rename_i hk
      rw [Option.some.injEq] at h
      subst h hk
      exact List.mem_cons_self _ _
    · exact List.mem_cons_of_mem _ (ih p h)

/-- The enemy placement loop preserves the invariant. -/
theorem enemyLoop_good (env : GenEnv) (cfg : LevelConfig)
    (hp : ∀ q ∈ cfg.enemyProps, 0 ≤ q.2.minDistance.getD 10) :
    ∀ (n : ℕ) (data : List ObjectData) (k : ℕ),
      goodData data → goodData (enemyLoop env cfg n data k).1 := by
  intro n
  induction n with
  | zero => intro data k h; exact h
  | succ n ih =>
    intro data k h
    rcases ht : cfg.enemyTypes[(⌊env.u k * (cfg.enemyTypes.length : ℚ)⌋).toNat]?
      with _ | t
    · simp only [enemyLoop, ht]
      exact ih data (k + 1) h
    · rcases hq : propsLookup t cfg.enemyProps with _ | props
      · simp only [enemyLoop, ht, hq]
        exact ih data (k + 1) h
      · have hd : 0 ≤ props.minDistance.getD 10 :=
          hp (t, props) (propsLookup_mem t cfg.enemyProps props hq)
        rcases hr : findValidPosition env (props.minDistance.getD 10) data
            (props.maxPlacementAttempts.getD 40) (k + 1) with ⟨o, k₁⟩
        cases o with
        | none =>
          simp only [enemyLoop, ht, hq, hr]
          exact ih data k₁ h
        | some pos =>
          obtain ⟨wx, wz⟩ := pos
          simp only [enemyLoop, ht, hq, hr]
          have hval := isPositionValid_spacing env wx wz
            (props.minDistance.getD 10) data
            (findValidPosition_valid env (props.minDistance.getD 10) data
              (props.maxPlacementAttempts.getD 40) (k + 1) k₁ wx wz hr)
          apply ih
          apply goodData_append data _ h
          · simpa using hd
          · intro e he
            simpa using hval e he

/-- The loop over all object-type specifications preserves the invariant. -/
theorem specsLoop_good (env : GenEnv) :
    ∀ specs : List ObjectTypeSpec, (∀ s ∈ specs, 0 ≤ s.minDistance) →
      ∀ (data : List ObjectData) (k : ℕ),
        goodData data → goodData (specsLoop env specs data k).1 := by
  intro specs
  induction specs with
  | nil => intro _ data k h; exact h
  | cons spec rest ih =>
    intro hall data k h
    simp only [specsLoop]
    exact ih (fun s hs => hall s (List.mem_cons_of_mem _ hs)) _ _
      (placeLoop_good env spec (hall spec (List.mem_cons_self _ _)) _ data
        (k + 1) h)

/-- C4: the spacing invariant.  If every configured `minDistance` (object
types and enemy properties, with the destructuring default) is
nonnegative, then any two distinct entries of a generated chunk list are
at squared XZ distance at least the square of the larger of their two
`minDistance` values — entries are only ever omitted, never placed in
violation. -/
theorem generateObjectsForChunk_spacing (rngOf : String → ℕ → ℚ)
    (seed : String) (S safeRadius : ℚ) (noise : ℚ → ℚ → ℚ)
    (cfg : LevelConfig) (cx cz : ℤ)
    (h1 : ∀ s ∈ cfg.objectTypes, 0 ≤ s.minDistance)
    (h2 : ∀ q ∈ cfg.enemyProps, 0 ≤ q.2.minDistance.getD 10) :
    List.Pairwise spacedOK
      (generateObjectsForChunk rngOf seed S safeRadius noise cfg cx cz) := by
  simp only [generateObjectsForChunk]
  have hnil : goodData [] := ⟨List.Pairwise.nil, by simp⟩
  set E : GenEnv :=
    { u := rngOf (chunkSeedString seed cx cz)
      S := S, ox := (cx : ℚ) * S, oz := (cz : ℚ) * S
      safeSq := safeRadius * safeRadius
      noise := noise, freq := cfg.noiseFrequency, amp := cfg.noiseAmplitude }
    with hE
  have hspecs := specsLoop_good E cfg.objectTypes h1 [] 0 hnil
  split
  · exact (enemyLoop_good E cfg h2 _ _ _ hspecs).1
  · exact hspecs.1

/-- Witness for C4 on a concrete one-type level configuration. -/
theorem generateObjectsForChunk_spacing_witness :
    (∀ s ∈ (⟨[⟨"coin", 1 / 100, 2, 1 / 2, 8 / 10, 12 / 10, true, false, 10,
        20⟩], [], [], 0, 1 / 100, 5⟩ : LevelConfig).objectTypes,
      0 ≤ s.minDistance)
    ∧ List.Pairwise spacedOK
        (generateObjectsForChunk (fun _ n => 1 / (n + 2)) "test" 4 10
          (fun _ _ => 0)
          ⟨[⟨"coin", 1 / 100, 2, 1 / 2, 8 / 10, 12 / 10, true, false, 10,
            20⟩], [], [], 0, 1 / 100, 5⟩ 0 0) := by
  have h1 : ∀ s ∈ (⟨[⟨"coin", 1 / 100, 2, 1 / 2, 8 / 10, 12 / 10, true,
      false, 10, 20⟩], [], [], 0, 1 / 100, 5⟩ : LevelConfig).objectTypes,
      0 ≤ s.minDistance := by
    intro s hs
    rw [List.mem_singleton] at hs
    subst hs
    norm_num
  refine ⟨h1, ?_⟩
  exact generateObjectsForChunk_spacing (fun _ n => 1 / (n + 2)) "test" 4 10
    (fun _ _ => 0) _ 0 0 h1 (by intro q hq; simp at hq)

/-! ### Count bounds (C9) -/

/-- The placement loop appends at most `n` entries, all of the processed
specification's type. -/
theorem placeLoop_shape (env : GenEnv) (spec : ObjectTypeSpec) :
    ∀ (n : ℕ) (data : List ObjectData) (k : ℕ),
      ∃ tail, (placeLoop env spec n data k).1 = data ++ tail
        ∧ tail.length ≤ n ∧ ∀ e ∈ tail, e.type = spec.type := by
  intro n
  induction n with
  | zero => intro data k; exact ⟨[], by simp [placeLoop], by simp, by simp⟩
  | succ n ih =>
    intro data k
    rcases hr : findValidPosition env spec.minDistance data
        spec.maxPlacementAttempts k with ⟨o, k₁⟩
    cases o with
    | none =>
      obtain ⟨tail, h1, h2, h3⟩ := ih data k₁
      exact ⟨tail, by simp only [placeLoop, hr]; exact h1,
        le_trans h2 (Nat.le_succ n), h3⟩
    | some pos =>
      obtain ⟨wx, wz⟩ := pos
      simp only [placeLoop, hr]
      obtain ⟨tail, h1, h2, h3⟩ := ih
        (data ++ [placeEntry env spec wx wz
          (spec.scaleMin + env.u k₁ * (spec.scaleMax - spec.scaleMin))
          (if spec.randomRotationY then env.u (k₁ + 1) * mathPI * 2 else 0)])
        (if spec.randomRotationY then k₁ + 2 else k₁ + 1)
      refine ⟨placeEntry env spec wx wz
          (spec.scaleMin + env.u k₁ * (spec.scaleMax - spec.scaleMin))
          (if spec.randomRotationY then env.u (k₁ + 1) * mathPI * 2 else 0)
          :: tail, ?_, ?_, ?_⟩
      · rw [h1, List.append_assoc]
        rfl
      · simp only [List.length_cons]
        omega
      · intro e he
        rcases List.mem_cons.mp he with h | h
        · rw [h]
          simp [placeEntry]
        · exact h3 e h

/-- The specification loop only appends entries whose type is one of the
processed specifications' types. -/
theorem specsLoop_types (env : GenEnv) :
    ∀ (specs : List ObjectTypeSpec) (data : List ObjectData) (k : ℕ),
      ∃ tail, (specsLoop env specs data k).1 = data ++ tail
        ∧ ∀ e ∈ tail, e.type ∈ specs.map ObjectTypeSpec.type := by
  intro specs
  induction specs with
  | nil => intro data k; exact ⟨[], by simp [specsLoop], by simp⟩
  | cons spec rest ih =>
    intro data k
    simp only [specsLoop]
    obtain ⟨t1, h1, _, hty1⟩ := placeLoop_shape env spec
      (⌊env.S * env.S * spec.density *
        (4 / 5 + env.u k * (2 / 5))⌋).toNat data (k + 1)
    obtain ⟨t2, h2, hty2⟩ := ih
      (placeLoop env spec
        (⌊env.S * env.S * spec.density *
          (4 / 5 + env.u k * (2 / 5))⌋).toNat data (k + 1)).1
      (placeLoop env spec
        (⌊env.S * env.S * spec.density *
          (4 / 5 + env.u k * (2 / 5))⌋).toNat data (k + 1)).2
    refine ⟨t1 ++ t2, ?_, ?_⟩
    · rw [h2, h1, List.append_assoc]
    · intro e he
      rcases List.mem_append.mp he with h | h
      · rw [List.map_cons]
        rw [hty1 e h]
        exact List.mem_cons_self _ _
      · rw [List.map_cons]
        exact List.mem_cons_of_mem _ (hty2 e h)

/-- The enemy loop only appends entries whose type is a configured enemy
type. -/
theorem enemyLoop_types (env : GenEnv) (cfg : LevelConfig) :
    ∀ (n : ℕ) (data : List ObjectData) (k : ℕ),
      ∃ tail, (enemyLoop env cfg n data k).1 = data ++ tail
        ∧ ∀ e ∈ tail, e.type ∈ cfg.enemyTypes := by
  intro n
  induction n with
  | zero => intro data k; exact ⟨[], by simp [enemyLoop], by simp⟩
  | succ n ih =>
    intro data k
    rcases ht : cfg.enemyTypes[(⌊env.u k * (cfg.enemyTypes.length : ℚ)⌋).toNat]?
      with _ | t
    · obtain ⟨tail, h1, h2⟩ := ih data (k + 1)
      exact ⟨tail, by simp only [enemyLoop, ht]; exact h1, h2⟩
    · have htm : t ∈ cfg.enemyTypes := by
        have := List.getElem?_eq_some.mp ht
        obtain ⟨hlt, hget⟩ := this
        rw [← hget]
        exact List.getElem_mem hlt
      rcases hq : propsLookup t cfg.enemyProps with _ | props
      · obtain ⟨tail, h1, h2⟩ := ih data (k + 1)
        exact ⟨tail, by simp only [enemyLoop, ht, hq]; exact h1, h2⟩
      · rcases hr : findValidPosition env (props.minDistance.getD 10) data
            (props.maxPlacementAttempts.getD 40) (k + 1) with ⟨o, k₁⟩
        cases o with
        | none =>
          obtain ⟨tail, h1, h2⟩ := ih data k₁
          exact ⟨tail, by simp only [enemyLoop, ht, hq, hr]; exact h1, h2⟩
        | some pos =>
          obtain ⟨wx, wz⟩ := pos
          simp only [enemyLoop, ht, hq, hr]
          obtain ⟨tail, h1, h2⟩ := ih
            (data ++ [{ posX := wx,
                        posY := env.noise (wx * env.freq) (wz * env.freq) *
                          env.amp + props.verticalOffset.getD 0, posZ := wz
                        type := t, scale := 1
                        rotationY := env.u k₁ * mathPI * 2
                        collected := false, collidable := true
                        scoreValue := 0,
                        minDistance := props.minDistance.getD 10 }]) (k₁ + 1)
          refine ⟨{ posX := wx,
                    posY := env.noise (wx * env.freq) (wz * env.freq) *
                      env.amp + props.verticalOffset.getD 0, posZ := wz
                    type := t, scale := 1
                    rotationY := env.u k₁ * mathPI * 2
                    collected := false, collidable := true
                    scoreValue := 0,
                    minDistance := props.minDistance.getD 10 } :: tail,
            ?_, ?_⟩
          · rw [h1, List.append_assoc]
            rfl
          · intro e he
            rcases List.mem_cons.mp he with h | h
            · rw [h]
              exact htm
            · exact h2 e h

/-- The attempted count `⌊average * (0.8 + r * 0.4)⌋`, clamped to a
natural number, never exceeds `⌈average * 1.2⌉` when `r ∈ [0, 1)` and the
average is nonnegative. -/
theorem attempted_count_le_ceil (a r : ℚ) (ha : 0 ≤ a) (hr0 : 0 ≤ r)
    (hr1 : r < 1) :
    ((⌊a * (4 / 5 + r * (2 / 5))⌋.toNat : ℤ)) ≤ ⌈a * (12 / 10)⌉ := by
  have hle : a * (4 / 5 + r * (2 / 5)) ≤ a * (12 / 10) := by
    apply mul_le_mul_of_nonneg_left _ ha
    linarith
  have h1 : ⌊a * (4 / 5 + r * (2 / 5))⌋ ≤ ⌈a * (12 / 10)⌉ :=
    le_trans (Int.floor_le_floor hle) (Int.floor_le_ceil _)
  have h2 : (0 : ℤ) ≤ ⌈a * (12 / 10)⌉ :=
    Int.ceil_nonneg (mul_nonneg ha (by norm_num))
  rw [Int.toNat_eq_max]
  exact max_le h1 h2

/-- Processing the specification list bounds the count of entries carrying
a given specification's type: wherever that specification sits in the list,
if its type name occurs on no other specification, the entries of its type
added by the whole loop number at most `⌈area · density · 1.2⌉`. -/
theorem specsLoop_count_le (env : GenEnv)
    (hu : ∀ n, 0 ≤ env.u n ∧ env.u n < 1) (spec : ObjectTypeSpec)
    (hd : 0 ≤ spec.density) :
    ∀ (pre post : List ObjectTypeSpec) (data : List ObjectData) (k : ℕ),
      spec.type ∉ pre.map ObjectTypeSpec.type →
      spec.type ∉ post.map ObjectTypeSpec.type →
      data.countP (fun e => e.type == spec.type) = 0 →
      (((specsLoop env (pre ++ spec :: post) data k).1.countP
          (fun e => e.type == spec.type) : ℕ) : ℤ)
        ≤ ⌈env.S * env.S * spec.density * (12 / 10)⌉ := by
  intro pre
  induction pre with
  | nil =>
    intro post data k _ hpost hdata
    simp only [List.nil_append, specsLoop]
    obtain ⟨t1, h1, hlen1, hty1⟩ := placeLoop_shape env spec
      (⌊env.S * env.S * spec.density * (4 / 5 + env.u k * (2 / 5))⌋).toNat
      data (k + 1)
    obtain ⟨t2, h2, hty2⟩ := specsLoop_types env post
      (placeLoop env spec
        (⌊env.S * env.S * spec.density *
          (4 / 5 + env.u k * (2 / 5))⌋).toNat data (k + 1)).1
      (placeLoop env spec
        (⌊env.S * env.S * spec.density *
          (4 / 5 + env.u k * (2 / 5))⌋).toNat data (k + 1)).2
    have hc1 : t1.countP (fun e => e.type == spec.type) = t1.length := by
      rw [List.countP_eq_length]
      intro e he
      simp [hty1 e he]
    have hc2 : t2.countP (fun e => e.type == spec.type) = 0 := by
      rw [List.countP_eq_zero]
      intro e he
      have hmem := hty2 e he
      simp only [beq_iff_eq]
      intro hEq
      exact hpost (hEq ▸ hmem)
    rw [h2, h1]
    simp only [List.countP_append, hdata, hc1, hc2, Nat.zero_add,
      Nat.add_zero]
    have hcast : ((t1.length : ℕ) : ℤ) ≤
        ((⌊env.S * env.S * spec.density *
          (4 / 5 + env.u k * (2 / 5))⌋.toNat : ℕ) : ℤ) := by
      exact_mod_cast hlen1
    exact le_trans hcast (attempted_count_le_ceil _ _
      (mul_nonneg (mul_self_nonneg env.S) hd) (hu k).1 (hu k).2)
  | cons q pre' ih =>
    intro post data k hpre hpost hdata
    have hq : spec.type ≠ q.type := by
      intro h
      apply hpre
      rw [List.map_cons, h]
      exact List.mem_cons_self _ _
    have hpre' : spec.type ∉ pre'.map ObjectTypeSpec.type := by
      intro h
      apply hpre
      rw [List.map_cons]
      exact List.mem_cons_of_mem _ h
    simp only [List.cons_append, specsLoop]
    obtain ⟨tq, hq1, _, hqty⟩ := placeLoop_shape env q
      (⌊env.S * env.S * q.density * (4 / 5 + env.u k * (2 / 5))⌋).toNat
      data (k + 1)
    apply ih post _ _ hpre' hpost
    rw [hq1, List.countP_append, hdata, Nat.zero_add, List.countP_eq_zero]
    intro e he
    simp only [beq_iff_eq]
    intro hEq
    exact hq (hEq ▸ hqty e he)

/-- C9: the per-type count bound.  For every content-type specification,
wherever it occurs in `OBJECT_TYPES` — provided its type name recurs on no
other specification and is not an enemy type — the number of entries of
that type produced by `generateObjectsForChunk` is at most
`⌈chunkArea · density · 1.2⌉`: the attempted count is
`⌊chunkArea · density · (0.8 + r·0.4)⌋` for that specification's count
draw `r` taken from the `[0, 1)`-valued PRNG stream, and failed placements
only reduce the final count. -/
theorem generateObjectsForChunk_count_bound (rngOf : String → ℕ → ℚ)
    (seed : String) (S safeRadius : ℚ) (noise : ℚ → ℚ → ℚ)
    (spec : ObjectTypeSpec) (pre post : List ObjectTypeSpec)
    (cfg : LevelConfig) (cx cz : ℤ)
    (hcfg : cfg.objectTypes = pre ++ spec :: post)
    (hu : ∀ n, 0 ≤ rngOf (chunkSeedString seed cx cz) n ∧
      rngOf (chunkSeedString seed cx cz) n < 1)
    (hd : 0 ≤ spec.density)
    (hpre : spec.type ∉ pre.map ObjectTypeSpec.type)
    (hpost : spec.type ∉ post.map ObjectTypeSpec.type)
    (hene : spec.type ∉ cfg.enemyTypes) :
    (((generateObjectsForChunk rngOf seed S safeRadius noise cfg
          cx cz).countP (fun e => e.type == spec.type) : ℕ) : ℤ)
      ≤ ⌈S * S * spec.density * (12 / 10)⌉ := by
  simp only [generateObjectsForChunk, hcfg]
  set E : GenEnv :=
    { u := rngOf (chunkSeedString seed cx cz)
      S := S, ox := (cx : ℚ) * S, oz := (cz : ℚ) * S
      safeSq := safeRadius * safeRadius
      noise := noise, freq := cfg.noiseFrequency, amp := cfg.noiseAmplitude }
    with hE
  have huE : ∀ n, 0 ≤ E.u n ∧ E.u n < 1 := hu
  have hmain := specsLoop_count_le E huE spec hd pre post [] 0 hpre hpost
    (by simp)
  split
  · obtain ⟨t3, h3, hty3⟩ := enemyLoop_types E cfg
      (⌊S * S * cfg.enemySpawnDensity *
        (4 / 5 + E.u (specsLoop E (pre ++ spec :: post) [] 0).2 *
          (2 / 5))⌋).toNat
      (specsLoop E (pre ++ spec :: post) [] 0).1
      ((specsLoop E (pre ++ spec :: post) [] 0).2 + 1)
    have hc3 : t3.countP (fun e => e.type == spec.type) = 0 := by
      rw [List.countP_eq_zero]
      intro e he
      have hmem := hty3 e he
      simp only [beq_iff_eq]
      intro hEq
      exact hene (hEq ▸ hmem)
    rw [h3]
    simp only [List.countP_append, hc3, Nat.add_zero]
    exact hmain
  · exact hmain

/-- Witness for C9 with the target specification in the second (non-head)
position of `OBJECT_TYPES`: seed `"test"`, region `(0,0)`, an obstacle
specification first, then density `0.01` for type `"coin"` with minimum
spacing `2` and max attempts `20`. -/
theorem generateObjectsForChunk_count_bound_witness :
    (⟨[⟨"rock_small", 1 / 50, 3, 0, 1, 2, false, true, 0, 20⟩,
       ⟨"coin", 1 / 100, 2, 1 / 2, 8 / 10, 12 / 10, true, false, 10, 20⟩],
      [], [], 0, 1 / 100, 5⟩ : LevelConfig).objectTypes =
      [⟨"rock_small", 1 / 50, 3, 0, 1, 2, false, true, 0, 20⟩] ++
        ⟨"coin", 1 / 100, 2, 1 / 2, 8 / 10, 12 / 10, true, false, 10, 20⟩ ::
          []
    ∧ (∀ n : ℕ, 0 ≤ (fun (_ : String) (_ : ℕ) => (1 : ℚ) / 2)
        (chunkSeedString "test" 0 0) n ∧
        (fun (_ : String) (_ : ℕ) => (1 : ℚ) / 2)
          (chunkSeedString "test" 0 0) n < 1)
    ∧ ("coin" ∉ [⟨"rock_small", 1 / 50, 3, 0, 1, 2, false, true, 0,
        20⟩].map ObjectTypeSpec.type)
    ∧ (((generateObjectsForChunk (fun _ _ => 1 / 2) "test" 4 10
          (fun _ _ => 0)
          ⟨[⟨"rock_small", 1 / 50, 3, 0, 1, 2, false, true, 0, 20⟩,
            ⟨"coin", 1 / 100, 2, 1 / 2, 8 / 10, 12 / 10, true, false, 10,
              20⟩], [], [], 0, 1 / 100, 5⟩ 0 0).countP
            (fun e => e.type == "coin") : ℕ) : ℤ)
        ≤ ⌈(4 : ℚ) * 4 * (1 / 100) * (12 / 10)⌉ := by
  refine ⟨rfl, by intro n; constructor <;> norm_num, by simp, ?_⟩
  exact generateObjectsForChunk_count_bound (fun _ _ => 1 / 2) "test" 4 10
    (fun _ _ => 0)
    ⟨"coin", 1 / 100, 2, 1 / 2, 8 / 10, 12 / 10, true, false, 10, 20⟩
    [⟨"rock_small", 1 / 50, 3, 0, 1, 2, false, true, 0, 20⟩] []
    ⟨[⟨"rock_small", 1 / 50, 3, 0, 1, 2, false, true, 0, 20⟩,
      ⟨"coin", 1 / 100, 2, 1 / 2, 8 / 10, 12 / 10, true, false, 10, 20⟩],
      [], [], 0, 1 / 100, 5⟩ 0 0 rfl
    (by intro n; constructor <;> norm_num) (by norm_num) (by simp) (by simp)
    (by simp)


/-! ### The stitching pass is a value-level no-op

For every valid detail level the "stitching" loop rewrites each targeted
edge vertex with exactly the value the base pass already stored there
(same world position, same noise formula), so the height buffer of
`createTerrainChunk` equals the unstitched buffer for every input.  This
is the general fact behind the C1 counterexample: the pass cannot make
the mesh agree with a coarser neighbor anywhere it did not already. -/

/-- Setting an index to the value already stored there is the identity. -/
theorem list_set_getD (l : List ℚ) (n : ℕ) (v : ℚ) (h : l.getD n 0 = v) :
    l.set n v = l := by
  induction l generalizing n with
  | nil => rfl
  | cons a t ih =>
    cases n with
    | zero =>
      simp [List.getD] at h
      simp [h]
    | succ n =>
      simp only [List.set]
      rw [ih]
      simp [List.getD] at h ⊢
      exact h

/-- A fold whose every step fixes the accumulator fixes the accumulator. -/
theorem foldl_fixed {α : Type} (f : List ℚ → α → List ℚ) (b : List ℚ) :
    ∀ l : List α, (∀ x ∈ l, f b x = b) → l.foldl f b = b := by
  intro l
  induction l with
  | nil => intro _; rfl
  | cons a t ih =>
    intro h
    rw [List.foldl_cons, h a (List.mem_cons_self a t)]
    exact ih fun x hx => h x (List.mem_cons_of_mem a hx)

/-- Reading the base height buffer decodes the grid row and column. -/
theorem baseHeights_getD (noise : ℚ → ℚ → ℚ) (cfg : TerrainLevelConfig)
    (S : ℚ) (cx cz : ℤ) (s i : ℕ) (hi : i < (s + 1) * (s + 1)) :
    (baseHeights noise cfg S cx cz s).getD i 0 =
      baseHeight noise cfg S cx cz s (i / (s + 1)) (i % (s + 1)) := by
  unfold baseHeights
  rw [List.getD_eq_getElem?_getD, List.getElem?_map, List.getElem?_range hi]
  rfl

/-- Stitching one edge of the base buffer changes nothing: each write
re-stores the height already computed for that vertex. -/
theorem stitchEdge_preserves_base (noise : ℚ → ℚ → ℚ)
    (cfg : TerrainLevelConfig) (S : ℚ) (cx cz : ℤ) (s : ℕ) (hs : 0 < s)
    (nb : ℤ) (e : Edge) :
    stitchEdge noise cfg S cx cz (s : ℤ) nb e
      (baseHeights noise cfg S cx cz s) = baseHeights noise cfg S cx cz s := by
  have hs0 : (s : ℚ) ≠ 0 := Nat.cast_ne_zero.mpr hs.ne'
  unfold stitchEdge
  split
  · rfl
  · apply foldl_fixed
    intro i hi
    have hiN : i < ((s : ℤ) + 1).toNat := List.mem_range.mp hi
    have hi' : i ≤ s := by omega
    split
    · rfl
    · have hsN : (s : ℤ).toNat = s := by omega
      rw [hsN]
      apply list_set_getD
      cases e with
      | north =>
        have hlt : i < (s + 1) * (s + 1) := by nlinarith
        have hdiv : i / (s + 1) = 0 := Nat.div_eq_of_lt (by omega)
        have hmod : i % (s + 1) = i := Nat.mod_eq_of_lt (by omega)
        rw [show edgeIndex s Edge.north i = i from rfl,
          baseHeights_getD noise cfg S cx cz s i hlt, hdiv, hmod]
        simp only [baseHeight, stitchHeight, edgeLocalX, edgeLocalZ,
          vertexLocalX, vertexLocalZ, Nat.cast_zero, zero_mul, add_zero]
      | south =>
        have hlt : s * (s + 1) + i < (s + 1) * (s + 1) := by nlinarith
        have hdiv : (s * (s + 1) + i) / (s + 1) = s := by
          rw [Nat.mul_comm, Nat.mul_add_div (Nat.succ_pos s)]
          simp [Nat.div_eq_of_lt (by omega : i < s + 1)]
        have hmod : (s * (s + 1) + i) % (s + 1) = i := by
          rw [Nat.mul_comm, Nat.mul_add_mod]
          exact Nat.mod_eq_of_lt (by omega)
        have hzz : vertexLocalZ S s s = S / 2 := by
          unfold vertexLocalZ
          field_simp
          ring
        rw [show edgeIndex s Edge.south i = s * (s + 1) + i from rfl,
          baseHeights_getD noise cfg S cx cz s _ hlt, hdiv, hmod]
        simp only [baseHeight, stitchHeight, edgeLocalX, edgeLocalZ,
          vertexLocalX, vertexLocalZ] at hzz ⊢
        rw [hzz]
      | east =>
        have hidx : edgeIndex s Edge.east i = i * (s + 1) + s := by
          unfold edgeIndex
          ring_nf
          omega
        have hlt : i * (s + 1) + s < (s + 1) * (s + 1) := by nlinarith
        have hdiv : (i * (s + 1) + s) / (s + 1) = i := by
          rw [Nat.mul_comm, Nat.mul_add_div (Nat.succ_pos s)]
          simp [Nat.div_eq_of_lt (by omega : s < s + 1)]
        have hmod : (i * (s + 1) + s) % (s + 1) = s := by
          rw [Nat.mul_comm, Nat.mul_add_mod]
          exact Nat.mod_eq_of_lt (by omega)
        have hxx : vertexLocalX S s s = S / 2 := by
          unfold vertexLocalX
          field_simp
          ring
        rw [hidx, baseHeights_getD noise cfg S cx cz s _ hlt, hdiv, hmod]
        simp only [baseHeight, stitchHeight, edgeLocalX, edgeLocalZ,
          vertexLocalX, vertexLocalZ] at hxx ⊢
        rw [hxx]
      | west =>
        have hlt : i * (s + 1) < (s + 1) * (s + 1) := by nlinarith
        have hdiv : i * (s + 1) / (s + 1) = i :=
          Nat.mul_div_cancel i (Nat.succ_pos s)
        have hmod : i * (s + 1) % (s + 1) = 0 := Nat.mul_mod_left i (s + 1)
        rw [show edgeIndex s Edge.west i = i * (s + 1) from rfl,
          baseHeights_getD noise cfg S cx cz s _ hlt, hdiv, hmod]
        simp only [baseHeight, stitchHeight, edgeLocalX, edgeLocalZ,
          vertexLocalX, vertexLocalZ, Nat.cast_zero, zero_mul, add_zero]

/-- Stitching all four edges of the base buffer changes nothing. -/
theorem stitchTerrainEdges_preserves_base (noise : ℚ → ℚ → ℚ)
    (cfg : TerrainLevelConfig) (S : ℚ) (cx cz : ℤ) (s : ℕ) (hs : 0 < s)
    (nbs : NeighborLODs) :
    stitchTerrainEdges noise cfg S cx cz (some (s : ℤ)) nbs
      (baseHeights noise cfg S cx cz s) = baseHeights noise cfg S cx cz s := by
  simp only [stitchTerrainEdges,
    stitchEdge_preserves_base noise cfg S cx cz s hs]

/-- For every valid detail level, `createTerrainChunk` returns exactly the
base heights — the stitching pass never changes a value. -/
theorem createTerrainChunk_heights_eq_base (noise : ℚ → ℚ → ℚ)
    (cfg : TerrainLevelConfig) (S : ℚ) (cx cz : ℤ) (s : ℕ) (hs : 0 < s)
    (nbs : NeighborLODs) :
    (createTerrainChunk noise S cfg cx cz (some (s : ℤ)) nbs).heights =
      baseHeights noise cfg S cx cz s := by
  have hres : resolveSegments (some (s : ℤ)) = s := by
    simp only [resolveSegments, lodInvalid]
    rw [if_neg]
    · simp only [Option.getD_some]
      omega
    · simp only [decide_eq_true_eq]
      omega
  simp only [createTerrainChunk, hres]
  exact stitchTerrainEdges_preserves_base noise cfg S cx cz s hs nbs

end OpenRunner
